import Mathlib

/-!
Shallow embedding of the Acala `accounts` module
(`src/modules/accounts/src/lib.rs`): the account-existence tracker
(`StoredMap` implementation), `open_account` / `close_account`, the
auto-open-on-receive hook, and the transaction-fee charger
(`withdraw_fee`, `get_priority`).

Modelling conventions:
- `Balance` is `Nat` (the runtime `Balance` is `u128`; none of the
  verified operations can underflow below zero because every
  subtraction is guarded by a balance check, and `Nat` arithmetic is
  used with explicit saturation where the source saturates).
- Account storage (`frame_system::Account`) is a total function
  `AccountId → Option (AccountInfo Data)`; `None` means the key is not
  explicit (`contains_key` is false); reading an absent key yields the
  default record (`ValueQuery` semantics).
- The currency ledger (orml-style `MultiCurrency`) is modelled by
  per-currency `free`/`reserved` maps with `reserve` succeeding iff the
  free balance covers the amount, `transfer` succeeding iff the free
  balance of the sender covers the amount (a self-transfer is a no-op
  success), and `unreserve` total.
- Lifecycle hooks (`OnCreatedAccount::happened`, `KillAccount::happened`)
  and entry into `Module::open_account` are recorded in an event log so
  that "fires exactly once" claims can be stated; events are prepended.
- External collaborators of the fee charger (the fee formula of
  `pallet_transaction_payment`, `ensure_can_withdraw`, `withdraw`, the
  DEX swap) are parameters collected in `FeeEnv`, since their code is
  outside this module.
-/

namespace AcalaAccounts

abbrev AccountId := Nat
abbrev Balance := Nat
abbrev CurrencyId := Nat

/-- `frame_system::AccountInfo`: nonce (sequence), refcount, and the
opaque per-account data owned by the ledger. -/
structure AccountInfo (Data : Type) where
  nonce : Nat
  refcount : Nat
  data : Data
deriving DecidableEq, Repr

instance (Data : Type) [Inhabited Data] : Inhabited (AccountInfo Data) :=
  ⟨⟨0, 0, default⟩⟩

/-- Lifecycle events observable from outside the module:
`openAccountEnter k` records an invocation of `Module::open_account(k)`,
`created k` records `T::OnCreatedAccount::happened(&k)`,
`killed k` records `T::KillAccount::happened(&k)`. -/
inductive Event where
  | openAccountEnter (k : AccountId)
  | created (k : AccountId)
  | killed (k : AccountId)
deriving DecidableEq, Repr

/-- Module configuration (`Trait` constants). `treasury` stands for
`TreasuryModuleId::get().into_account()`. `slippage` is opaque: it is
only ever passed through to the DEX. -/
structure Config where
  allNonNativeCurrencyIds : List CurrencyId
  nativeCurrencyId : CurrencyId
  stableCurrencyId : CurrencyId
  newAccountDeposit : Balance
  treasury : AccountId
  slippage : Nat
  maximumBlockWeight : Nat
  maximumBlockLength : Nat
deriving Repr

/-- Ledger state: account storage, per-currency free and reserved
balances, and the log of fired lifecycle events (most recent first). -/
structure LState (Data : Type) where
  account : AccountId → Option (AccountInfo Data)
  free : CurrencyId → AccountId → Balance
  reserved : CurrencyId → AccountId → Balance
  events : List Event

/-- Pointwise update of a two-argument balance map. -/
def upd2 (f : CurrencyId → AccountId → Balance) (c : CurrencyId) (a : AccountId)
    (v : Balance) : CurrencyId → AccountId → Balance :=
  fun c' a' => if c' = c ∧ a' = a then v else f c' a'

variable {Data : Type}

/-- Append an event to the log. -/
def logEvent (e : Event) (s : LState Data) : LState Data :=
  { s with events := e :: s.events }

/-- `Currency::reserve(currency_id, who, value)`: moves `value` from free
to reserved; fails iff the free balance does not cover `value`. -/
def reserveBal (c : CurrencyId) (who : AccountId) (value : Balance)
    (s : LState Data) : Option (LState Data) :=
  if value ≤ s.free c who then
    some { s with
      free := upd2 s.free c who (s.free c who - value),
      reserved := upd2 s.reserved c who (s.reserved c who + value) }
  else
    none

/-- `Currency::unreserve(currency_id, who, value)`: moves
`min value reserved` back to free; total. -/
def unreserveBal (c : CurrencyId) (who : AccountId) (value : Balance)
    (s : LState Data) : LState Data :=
  let moved := min value (s.reserved c who)
  { s with
    free := upd2 s.free c who (s.free c who + moved),
    reserved := upd2 s.reserved c who (s.reserved c who - moved) }

/-- `Currency::transfer(currency_id, from, to, amount)`: fails iff the
free balance of `from` does not cover `amount`; a self-transfer is a
no-op success. -/
def transferBal (c : CurrencyId) (from_ to_ : AccountId) (amount : Balance)
    (s : LState Data) : Option (LState Data) :=
  if amount ≤ s.free c from_ then
    if from_ = to_ then some s
    else
      some { s with
        free := upd2 (upd2 s.free c from_ (s.free c from_ - amount))
          c to_ (s.free c to_ + amount) }
  else
    none

/-- `pub fn split_inner` (lib.rs:338): split an option into two
constituent options via a splitter function. -/
def split_inner {T R S : Type} (option : Option T) (splitter : T → R × S) :
    Option R × Option S :=
  match option with
  | some inner =>
    let (r, s) := splitter inner
    (some r, some s)
  | none => (none, none)

/-- `Module::treasury_account_id` (lib.rs:195). -/
def treasury_account_id (cfg : Config) : AccountId := cfg.treasury

/-- `Module::open_account` (lib.rs:203). Entry is recorded with an
`openAccountEnter` event so that invocation counts are observable. Tries
to reserve `NewAccountDeposit` of the native currency; on success fires
`OnCreatedAccount`; on failure, if `k` is not the treasury account,
transfers the entire free native balance to the treasury and, if that
transfer succeeded, removes the account record. Total: never errors. -/
def open_account [Inhabited Data] (cfg : Config) (k : AccountId)
    (s : LState Data) : LState Data :=
  let s := logEvent (.openAccountEnter k) s
  let native := cfg.nativeCurrencyId
  match reserveBal native k cfg.newAccountDeposit s with
  | some s1 => logEvent (.created k) s1
  | none =>
    let treasury_account := treasury_account_id cfg
    if k ≠ treasury_account then
      match transferBal native k treasury_account (s.free native k) s with
      | some s1 =>
        { s1 with account := fun a => if a = k then none else s1.account a }
      | none => s
    else s

/-- `StoredMap::get` (lib.rs:273): data of the (defaulted) record. -/
def getData [Inhabited Data] (s : LState Data) (k : AccountId) : Data :=
  ((s.account k).getD default).data

/-- `StoredMap::is_explicit` (lib.rs:277): `contains_key`. -/
def is_explicit (s : LState Data) (k : AccountId) : Bool :=
  (s.account k).isSome

/-- `StoredMap::insert` (lib.rs:281): write `data` into the (defaulted)
record; if the key was not explicit before, invoke `open_account`. -/
def insert [Inhabited Data] (cfg : Config) (k : AccountId) (data : Data)
    (s : LState Data) : LState Data :=
  let existed := (s.account k).isSome
  let a0 := (s.account k).getD default
  let s1 : LState Data :=
    { s with account := fun a => if a = k then some { a0 with data := data } else s.account a }
  if existed then s1 else open_account cfg k s1

/-- `StoredMap::remove` (lib.rs:290): only fires `KillAccount`; does not
touch storage. -/
def removeAccount (k : AccountId) (s : LState Data) : LState Data :=
  logEvent (.killed k) s

/-- `StoredMap::mutate` (lib.rs:294): apply `f` to the (defaulted)
record's data in place; if the key was not explicit before, fire
`OnCreatedAccount` (not the full `open_account`). Returns `f`'s result. -/
def mutateMap [Inhabited Data] {R : Type} (k : AccountId)
    (f : Data → Data × R) (s : LState Data) : LState Data × R :=
  let existed := (s.account k).isSome
  let a0 := (s.account k).getD default
  let (data', r) := f a0.data
  let s1 : LState Data :=
    { s with account := fun a => if a = k then some { a0 with data := data' } else s.account a }
  let s2 := if existed then s1 else logEvent (.created k) s1
  (s2, r)

/-- `StoredMap::try_mutate_exists` (lib.rs:307): split the record into
prefix `(nonce, refcount)` and optional data, apply `f` to the optional
data view, and on success always write back
`AccountInfo { nonce, refcount, data }` with defaulted components (the
record is never removed here); if explicitness transitioned
false → true, invoke `open_account` afterwards. On error of `f`, the
storage write does not happen (`try_mutate_exists` of the storage map)
and the error is returned unchanged. -/
def try_mutate_exists [Inhabited Data] {R E : Type} (cfg : Config)
    (k : AccountId) (f : Option Data → Except E (Option Data × R))
    (s : LState Data) : Except E (LState Data × R) :=
  let maybe_value := s.account k
  let existed := maybe_value.isSome
  let (maybe_pfx, maybe_data) :=
    split_inner maybe_value (fun account => ((account.nonce, account.refcount), account.data))
  match f maybe_data with
  | .error e => .error e
  | .ok (maybe_data', result) =>
    let (nonce, refcount) := maybe_pfx.getD (0, 0)
    let data := maybe_data'.getD default
    let s1 : LState Data :=
      { s with account := fun a => if a = k then some ⟨nonce, refcount, data⟩ else s.account a }
    let s2 := if !existed then open_account cfg k s1 else s1
    .ok (s2, result)

/-- `StoredMap::mutate_exists` (lib.rs:303): `try_mutate_exists`
specialised to an infallible `f`. -/
def mutate_exists [Inhabited Data] {R : Type} (cfg : Config) (k : AccountId)
    (f : Option Data → Option Data × R) (s : LState Data) : LState Data × R :=
  match try_mutate_exists (E := Empty) cfg k (fun x => .ok (f x)) s with
  | .ok p => p
  | .error e => e.elim

/-- Errors of `close_account`: the module errors of `decl_error!` plus a
propagated error of the underlying `Currency::transfer` (`?`). -/
inductive CloseError where
  | nonZeroRefCount
  | stillHasActiveReserved
  | transferFailed
deriving DecidableEq, Repr

/-- `frame_system::Module::allow_death(who)`: the refcount of the
(defaulted) account record is zero. The record's refcount counts
external holds such as active currency locks. -/
def allow_death [Inhabited Data] (s : LState Data) (who : AccountId) : Bool :=
  ((s.account who).getD default).refcount = 0

/-- Loop body of `close_account` over `AllNonNativeCurrencyIds`
(lib.rs:173-182): for each non-native currency, require zero reserved
balance, then transfer the entire free balance to `recipient`. -/
def closeNonNativeLoop (who recipient : AccountId) :
    List CurrencyId → LState Data → Except CloseError (LState Data)
  | [], s => .ok s
  | currency_id :: rest, s =>
    if (s.reserved currency_id who = 0) then
      match transferBal currency_id who recipient (s.free currency_id who) s with
      | some s1 => closeNonNativeLoop who recipient rest s1
      | none => .error .transferFailed
    else .error .stillHasActiveReserved

/-- `close_account` dispatchable (lib.rs:142-189), with the origin
already resolved to `who`. The body runs inside
`with_transaction_result`: an `.error` result means no state change at
all (the caller keeps the pre-call state, see `close_account_dispatch`). -/
def close_account [Inhabited Data] (cfg : Config) (who : AccountId)
    (recipient? : Option AccountId) (s : LState Data) :
    Except CloseError (LState Data) :=
  if ¬ allow_death s who then .error .nonZeroRefCount
  else
    let native := cfg.nativeCurrencyId
    let deposit := cfg.newAccountDeposit
    let total_reserved_native := s.reserved native who
    if ¬ (total_reserved_native ≤ deposit) then .error .stillHasActiveReserved
    else
      let treasury_account := treasury_account_id cfg
      let recipient := recipient?.getD treasury_account
      let s1 := unreserveBal native who total_reserved_native s
      match transferBal native who recipient (s1.free native who) s1 with
      | none => .error .transferFailed
      | some s2 =>
        match closeNonNativeLoop who recipient cfg.allNonNativeCurrencyIds s2 with
        | .error e => .error e
        | .ok s3 => .ok (logEvent (.killed who) s3)

/-- The extrinsic as observed by the chain: `with_transaction_result`
rolls every mutation back on error, so an erroring call leaves the state
unchanged. -/
def close_account_dispatch [Inhabited Data] (cfg : Config) (who : AccountId)
    (recipient? : Option AccountId) (s : LState Data) : LState Data :=
  match close_account cfg who recipient? s with
  | .ok s' => s'
  | .error _ => s

/-- External collaborators of the fee charger and of the auto-open hook:
the fee formula of `pallet_transaction_payment`, its
`ensure_can_withdraw` dry-run and `withdraw` (KeepAlive), and the DEX
swap. `reasonHasTip` stands for the `WithdrawReason` set (payment alone,
or payment plus tip). A swap returning `none` failed and left the state
unchanged; `withdraw` returning `none` failed, `some` yields the new
state and the withdrawn imbalance. -/
structure FeeEnv (Data : Type) where
  computeFee : Nat → Nat → Balance → Balance
  ensureCanWithdraw : AccountId → Balance → Bool → Balance → Bool
  withdraw : AccountId → Balance → Bool → LState Data → Option (LState Data × Balance)
  swap : AccountId → List CurrencyId → Balance → Balance → Option Nat →
    LState Data → Option (LState Data)

/-- Trading path selection shared by `on_received` (lib.rs:244-248) and
the fee-fallback loop (lib.rs:421-425): direct `[stable, native]` when
the held currency is the stable currency, else `[currency, stable,
native]`. -/
def tradingPath (cfg : Config) (currency_id : CurrencyId) : List CurrencyId :=
  if currency_id = cfg.stableCurrencyId then
    [cfg.stableCurrencyId, cfg.nativeCurrencyId]
  else
    [currency_id, cfg.stableCurrencyId, cfg.nativeCurrencyId]

/-- `OnReceived::on_received` (lib.rs:239-267): when a non-explicit
account receives a non-native currency, try one DEX swap targeting the
deposit; the result is discarded (`let _ = ...`). -/
def on_received [Inhabited Data] (env : FeeEnv Data) (cfg : Config)
    (who : AccountId) (currency_id : CurrencyId) (s : LState Data) :
    LState Data :=
  if ¬ (is_explicit s who) ∧ currency_id ≠ cfg.nativeCurrencyId then
    match env.swap who (tradingPath cfg currency_id) cfg.newAccountDeposit
      (s.free currency_id who) (some cfg.slippage) s with
    | some s1 => s1
    | none => s
  else s

/-- Fee-fallback loop of `withdraw_fee` (lib.rs:420-439): iterate the
configured non-native currencies in order; the first successful swap
breaks the loop; failures are ignored. -/
def swapLoop (env : FeeEnv Data) (cfg : Config) (who : AccountId)
    (balance_fee : Balance) : List CurrencyId → LState Data → LState Data
  | [], s => s
  | currency_id :: rest, s =>
    match env.swap who (tradingPath cfg currency_id) balance_fee
      (s.free currency_id who) (some cfg.slippage) s with
    | some s1 => s1
    | none => swapLoop env cfg who balance_fee rest s

/-- Transaction-validity error of `withdraw_fee`:
`InvalidTransaction::Payment`. -/
inductive TxError where
  | paymentInvalid
deriving DecidableEq, Repr

/-- The `native_is_enough` check of `withdraw_fee` (lib.rs:396-406):
`free_balance(who).checked_sub(fee)` mapped through
`ensure_can_withdraw` with the computed reason, `false` on underflow. -/
def nativeIsEnough (env : FeeEnv Data) (cfg : Config) (who : AccountId)
    (fee : Balance) (reason : Bool) (s : LState Data) : Bool :=
  if fee ≤ s.free cfg.nativeCurrencyId who then
    env.ensureCanWithdraw who fee reason (s.free cfg.nativeCurrencyId who - fee)
  else false

/-- State in which the final withdrawal of `withdraw_fee` runs: the
original state when the native balance suffices, otherwise the state
after the fee-fallback swap loop (lib.rs:409-440). -/
def preWithdrawState (env : FeeEnv Data) (cfg : Config) (who : AccountId)
    (fee : Balance) (reason : Bool) (s : LState Data) : LState Data :=
  if nativeIsEnough env cfg who fee reason s then s
  else swapLoop env cfg who fee cfg.allNonNativeCurrencyIds s

/-- `ChargeTransactionPayment::withdraw_fee` (lib.rs:378-452). `tip` is
the extension's stored tip (`self.0`), `infoWeight` the dispatch info's
weight, `len` the encoded length. Returns the fee, the withdrawn
imbalance, and the new state; the source's local `native_is_enough` and
post-swap state are the named definitions above. -/
def withdraw_fee (env : FeeEnv Data) (cfg : Config) (who : AccountId)
    (infoWeight : Nat) (len : Nat) (tip : Balance) (s : LState Data) :
    Except TxError (Balance × Option Balance × LState Data) :=
  let fee := env.computeFee len infoWeight tip
  let reason : Bool := tip != 0
  match env.withdraw who fee reason (preWithdrawState env cfg who fee reason s) with
  | some (s2, imbalance) => .ok (fee, some imbalance, s2)
  | none => .error .paymentInvalid

/-- Saturating conversion into a `w`-bit unsigned integer
(`SaturatedConversion`). -/
def satInto (w : Nat) (x : Nat) : Nat := min x (2 ^ w - 1)

/-- `u128::saturating_mul`. -/
def saturatingMul128 (a b : Nat) : Nat := satInto 128 (a * b)

/-- `ChargeTransactionPayment::get_priority` (lib.rs:466-475).
`MaximumBlockWeight / weight.max(1)` and
`MaximumBlockLength as u64 / (len as u64).max(1)` are `u64` divisions
(never overflowing); the minimum is converted saturating into the `u128`
balance type, multiplied saturating into `final_fee`, and converted
saturating into the `u64` `TransactionPriority`. -/
def get_priority (cfg : Config) (len : Nat) (infoWeight : Nat)
    (final_fee : Balance) : Nat :=
  let weight_saturation := cfg.maximumBlockWeight / max infoWeight 1
  let len_saturation := cfg.maximumBlockLength / max len 1
  let coefficient := satInto 128 (min weight_saturation len_saturation)
  satInto 64 (saturatingMul128 final_fee coefficient)

/-- Number of `open_account` invocations for `k` recorded in the log. -/
def openInvocations (k : AccountId) : List Event → Nat
  | [] => 0
  | .openAccountEnter k' :: rest =>
    (if k' = k then 1 else 0) + openInvocations k rest
  | _ :: rest => openInvocations k rest

/-- Number of `OnCreatedAccount` notifications for `k` in the log. -/
def createdInvocations (k : AccountId) : List Event → Nat
  | [] => 0
  | .created k' :: rest => (if k' = k then 1 else 0) + createdInvocations k rest
  | _ :: rest => createdInvocations k rest

/-- One call into the Tracker for a fixed account: `insert`, `mutate`
(result type specialised to `Unit`), or `try_mutate_exists` (result
`Unit`, error `Unit`). -/
inductive TrackerOp (Data : Type) where
  | insertOp (d : Data)
  | mutateOp (f : Data → Data)
  | tryOp (f : Option Data → Except Unit (Option Data))

/-- State effect of one Tracker call. A failing `try_mutate_exists`
leaves the storage untouched (the storage map's `try_mutate_exists`
does not write on error). -/
def stepOp [Inhabited Data] (cfg : Config) (k : AccountId)
    (op : TrackerOp Data) (s : LState Data) : LState Data :=
  match op with
  | .insertOp d => insert cfg k d s
  | .mutateOp f => (mutateMap k (fun d => (f d, ())) s).1
  | .tryOp f =>
    match try_mutate_exists cfg k (fun x => (f x).map (fun y => (y, ()))) s with
    | .ok p => p.1
    | .error _ => s

/-- Run a sequence of Tracker calls for account `k`. -/
def runOps [Inhabited Data] (cfg : Config) (k : AccountId) :
    List (TrackerOp Data) → LState Data → LState Data
  | [], s => s
  | op :: rest, s => runOps cfg k rest (stepOp cfg k op s)

/-- The no-op mutation for `try_mutate_exists`: leaves the optional data
view untouched and succeeds. -/
def noopF : Option Data → Except Unit (Option Data × Unit) :=
  fun x => .ok (x, ())

/-! ### Concrete instances used by witnesses and counterexamples -/

/-- Sample configuration: native currency 0, stable currency 1,
non-native currencies `[1, 2]`, deposit 100, treasury account 7. -/
def cfgA : Config :=
  { allNonNativeCurrencyIds := [1, 2], nativeCurrencyId := 0,
    stableCurrencyId := 1, newAccountDeposit := 100, treasury := 7,
    slippage := 5, maximumBlockWeight := 1000, maximumBlockLength := 1000 }

/-- Completely empty ledger state over `Data := Nat`. -/
def sEmpty : LState Nat :=
  { account := fun _ => none, free := fun _ _ => 0,
    reserved := fun _ _ => 0, events := [] }

/-- Account 1 holds 50 free native units (below the deposit of 100) and
has no explicit record. -/
def sPoor : LState Nat :=
  { sEmpty with free := fun c a => if c = 0 ∧ a = 1 then 50 else 0 }

/-- Account 1 holds 1000 free native units and has no explicit record. -/
def sRich : LState Nat :=
  { sEmpty with free := fun c a => if c = 0 ∧ a = 1 then 1000 else 0 }

/-- The treasury account (7) holds 5 free native units; no explicit
records anywhere. -/
def sTreasury : LState Nat :=
  { sEmpty with free := fun c a => if c = 0 ∧ a = 7 then 5 else 0 }

/-- Sequence (nonce) of the defaulted record of `k` (`ValueQuery` read). -/
def nonceOf [Inhabited Data] (s : LState Data) (k : AccountId) : Nat :=
  ((s.account k).getD default).nonce

/-- Reference count of the defaulted record of `k`. -/
def refcountOf [Inhabited Data] (s : LState Data) (k : AccountId) : Nat :=
  ((s.account k).getD default).refcount

/-- Account 1 has an explicit record with nonce 3, refcount 0, data 9;
no balances anywhere. -/
def sExp : LState Nat :=
  { sEmpty with account := fun a => if a = 1 then some ⟨3, 0, 9⟩ else none }

/-- Account 1 holds 50 free and 30 reserved native units and 20 free
units of currency 2; no explicit records. -/
def sClose : LState Nat :=
  { sEmpty with
    free := fun c a =>
      if c = 0 ∧ a = 1 then 50 else if c = 2 ∧ a = 1 then 20 else 0,
    reserved := fun c a => if c = 0 ∧ a = 1 then 30 else 0 }

/-- A mutation that succeeds and sets the data view to `some 7`. -/
def c2f : Option Nat → Except Unit (Option Nat × Unit) :=
  fun _ => .ok (some 7, ())

/-- The account record of 1 after a successful `try_mutate_exists` with
`c2f` starting from `sPoor` (probe for the written-back record). -/
def c2probe : Option (AccountInfo Nat) :=
  match try_mutate_exists cfgA 1 c2f sPoor with
  | .ok p => p.1.account 1
  | .error _ => some default

/-- Number of `open_account` invocations fired by a no-op
`try_mutate_exists` on the recordless account 1 (probe for C3). -/
def c3probe : Nat :=
  match try_mutate_exists cfgA 1 noopF sPoor with
  | .ok p => openInvocations 1 p.1.events
  | .error _ => 0

/-- Free native balance retained by the treasury account after closing
itself with the default recipient (probe for C6). -/
def c6probe : Nat :=
  match close_account cfgA 7 none sTreasury with
  | .ok s' => s'.free 0 7
  | .error _ => 999

/-- Concrete fee environment for witnesses: fee is `len + weight + tip`,
the dry-run always passes, withdrawal succeeds iff the native free
balance covers the amount, every swap fails. -/
def envW : FeeEnv Nat :=
  { computeFee := fun len w tip => len + w + tip,
    ensureCanWithdraw := fun _ _ _ _ => true,
    withdraw := fun who amt _ s =>
      if amt ≤ s.free 0 who then
        some ({ s with free := upd2 s.free 0 who (s.free 0 who - amt) }, amt)
      else none,
    swap := fun _ _ _ _ _ _ => none }

/-! ## Helper lemmas -/

theorem open_account_reserve_ok [Inhabited Data] (cfg : Config) (k : AccountId)
    (s : LState Data) (h : cfg.newAccountDeposit ≤ s.free cfg.nativeCurrencyId k) :
    open_account cfg k s =
      { s with
        free := upd2 s.free cfg.nativeCurrencyId k
          (s.free cfg.nativeCurrencyId k - cfg.newAccountDeposit),
        reserved := upd2 s.reserved cfg.nativeCurrencyId k
          (s.reserved cfg.nativeCurrencyId k + cfg.newAccountDeposit),
        events := .created k :: .openAccountEnter k :: s.events } := by
  simp [open_account, reserveBal, logEvent, h]

theorem open_account_dust (cfg : Config) [Inhabited Data] (k : AccountId)
    (s : LState Data) (h : ¬ cfg.newAccountDeposit ≤ s.free cfg.nativeCurrencyId k)
    (hk : k ≠ cfg.treasury) :
    open_account cfg k s =
      { s with
        account := fun a => if a = k then none else s.account a,
        free := upd2 (upd2 s.free cfg.nativeCurrencyId k 0) cfg.nativeCurrencyId
          cfg.treasury
          (s.free cfg.nativeCurrencyId cfg.treasury + s.free cfg.nativeCurrencyId k),
        events := .openAccountEnter k :: s.events } := by
  simp [open_account, reserveBal, logEvent, transferBal, treasury_account_id, h, hk]

theorem open_account_treasury_poor (cfg : Config) [Inhabited Data]
    (s : LState Data)
    (h : ¬ cfg.newAccountDeposit ≤ s.free cfg.nativeCurrencyId cfg.treasury) :
    open_account cfg cfg.treasury s =
      { s with events := .openAccountEnter cfg.treasury :: s.events } := by
  simp [open_account, reserveBal, logEvent, treasury_account_id, h]

theorem insert_explicit_eq [Inhabited Data] (cfg : Config) (k : AccountId)
    (d : Data) (s : LState Data) (a0 : AccountInfo Data)
    (h : s.account k = some a0) :
    insert cfg k d s =
      { s with account := fun a => if a = k then some { a0 with data := d }
          else s.account a } := by
  simp [insert, h]

theorem insert_fresh_eq [Inhabited Data] (cfg : Config) (k : AccountId)
    (d : Data) (s : LState Data) (h : s.account k = none) :
    insert cfg k d s =
      open_account cfg k
        { s with account := fun a => if a = k then some ⟨0, 0, d⟩
            else s.account a } := by
  simp [insert, h, default]

theorem mutateMap_explicit_eq [Inhabited Data] {R : Type} (k : AccountId)
    (f : Data → Data × R) (s : LState Data) (a0 : AccountInfo Data)
    (h : s.account k = some a0) :
    mutateMap k f s =
      ({ s with account := fun a => if a = k then some { a0 with data := (f a0.data).1 }
          else s.account a }, (f a0.data).2) := by
  simp [mutateMap, h]

theorem mutateMap_fresh_eq [Inhabited Data] {R : Type} (k : AccountId)
    (f : Data → Data × R) (s : LState Data) (h : s.account k = none) :
    mutateMap k f s =
      ({ s with
          account := fun a =>
            if a = k then some ⟨0, 0, (f (default : AccountInfo Data).data).1⟩
            else s.account a,
          events := .created k :: s.events }, (f (default : AccountInfo Data).data).2) := by
  simp [mutateMap, h, logEvent, default]

theorem try_mutate_explicit_ok_eq [Inhabited Data] {R E : Type} (cfg : Config)
    (k : AccountId) (f : Option Data → Except E (Option Data × R))
    (s : LState Data) (a0 : AccountInfo Data) (d' : Option Data) (r : R)
    (h : s.account k = some a0) (hf : f (some a0.data) = .ok (d', r)) :
    try_mutate_exists cfg k f s =
      .ok ({ s with account := fun a =>
          if a = k then some ⟨a0.nonce, a0.refcount, d'.getD default⟩
          else s.account a }, r) := by
  simp [try_mutate_exists, split_inner, h, hf]

theorem try_mutate_fresh_ok_eq [Inhabited Data] {R E : Type} (cfg : Config)
    (k : AccountId) (f : Option Data → Except E (Option Data × R))
    (s : LState Data) (d' : Option Data) (r : R)
    (h : s.account k = none) (hf : f none = .ok (d', r)) :
    try_mutate_exists cfg k f s =
      .ok (open_account cfg k
        { s with account := fun a =>
            if a = k then some ⟨0, 0, d'.getD default⟩
            else s.account a }, r) := by
  simp [try_mutate_exists, split_inner, h, hf]

theorem try_mutate_error_eq [Inhabited Data] {R E : Type} (cfg : Config)
    (k : AccountId) (f : Option Data → Except E (Option Data × R))
    (s : LState Data) (e : E)
    (hf : f ((s.account k).map (fun a => a.data)) = .error e) :
    try_mutate_exists cfg k f s = .error e := by
  cases hs : s.account k <;> rw [hs] at hf <;>
    simp_all [try_mutate_exists, split_inner]

theorem openInvocations_open_account [Inhabited Data] (cfg : Config)
    (k : AccountId) (s : LState Data) :
    openInvocations k (open_account cfg k s).events =
      openInvocations k s.events + 1 := by
  by_cases h : cfg.newAccountDeposit ≤ s.free cfg.nativeCurrencyId k
  · rw [open_account_reserve_ok cfg k s h]
    simp [openInvocations]; omega
  · by_cases hk : k = cfg.treasury
    · subst hk
      rw [open_account_treasury_poor cfg s h]
      simp [openInvocations]; omega
    · rw [open_account_dust cfg k s h hk]
      simp [openInvocations]; omega

theorem open_account_account_ne [Inhabited Data] (cfg : Config)
    (k : AccountId) (s : LState Data) (a : AccountId) (ha : a ≠ k) :
    (open_account cfg k s).account a = s.account a := by
  by_cases h : cfg.newAccountDeposit ≤ s.free cfg.nativeCurrencyId k
  · rw [open_account_reserve_ok cfg k s h]
  · by_cases hk : k = cfg.treasury
    · subst hk; rw [open_account_treasury_poor cfg s h]
    · rw [open_account_dust cfg k s h hk]; simp [ha]

theorem stepOp_explicit_frame [Inhabited Data] (cfg : Config) (k : AccountId)
    (op : TrackerOp Data) (s : LState Data) (a0 : AccountInfo Data)
    (h : s.account k = some a0) :
    (stepOp cfg k op s).events = s.events ∧
    ∃ a1, (stepOp cfg k op s).account k = some a1 := by
  cases op with
  | insertOp d =>
    rw [stepOp, insert_explicit_eq cfg k d s a0 h]
    exact ⟨rfl, { a0 with data := d }, by simp⟩
  | mutateOp f =>
    rw [stepOp, mutateMap_explicit_eq k _ s a0 h]
    exact ⟨rfl, { a0 with data := f a0.data }, by simp⟩
  | tryOp f =>
    cases hf : f (some a0.data) with
    | error e =>
      have hf' : (fun x => (f x).map (fun y => (y, ())))
          ((s.account k).map (fun a => a.data)) = .error e := by
        simp [h, hf, Except.map]
      rw [stepOp, try_mutate_error_eq cfg k _ s e hf']
      exact ⟨rfl, a0, h⟩
    | ok d' =>
      have hf' : (fun x => (f x).map (fun y => (y, ()))) (some a0.data) =
          .ok (d', ()) := by simp [hf, Except.map]
      rw [stepOp, try_mutate_explicit_ok_eq cfg k _ s a0 d' () h hf']
      exact ⟨rfl, ⟨a0.nonce, a0.refcount, d'.getD default⟩, by simp⟩

theorem runOps_explicit_frame [Inhabited Data] (cfg : Config) (k : AccountId)
    (ops : List (TrackerOp Data)) :
    ∀ (s : LState Data) (a0 : AccountInfo Data), s.account k = some a0 →
      (runOps cfg k ops s).events = s.events ∧
      ∃ a1, (runOps cfg k ops s).account k = some a1 := by
  induction ops with
  | nil => exact fun s a0 h => ⟨rfl, a0, h⟩
  | cons op rest ih =>
    intro s a0 h
    obtain ⟨hev, a1, h1⟩ := stepOp_explicit_frame cfg k op s a0 h
    obtain ⟨hev', a2, h2⟩ := ih (stepOp cfg k op s) a1 h1
    exact ⟨by rw [runOps, hev', hev], a2, by rw [runOps]; exact h2⟩

theorem transferBal_some_frame (c : CurrencyId) (from_ to_ : AccountId)
    (v : Balance) (s s' : LState Data)
    (h : transferBal c from_ to_ v s = some s') :
    s'.account = s.account ∧ s'.events = s.events ∧ s'.reserved = s.reserved := by
  unfold transferBal at h
  split at h
  · split at h <;> cases h <;> exact ⟨rfl, rfl, rfl⟩
  · cases h

theorem closeNonNativeLoop_ok_frame (who recipient : AccountId) :
    ∀ (l : List CurrencyId) (s s' : LState Data),
      closeNonNativeLoop who recipient l s = .ok s' →
      s'.account = s.account ∧ s'.events = s.events := by
  intro l
  induction l with
  | nil => intro s s' h; cases h; exact ⟨rfl, rfl⟩
  | cons c rest ih =>
    intro s s' h
    unfold closeNonNativeLoop at h
    split at h
    · rcases htr : transferBal c who recipient (s.free c who) s with _ | s1 <;>
        rw [htr] at h
      · cases h
      · obtain ⟨ha1, he1, _⟩ := transferBal_some_frame c who recipient _ s s1 htr
        obtain ⟨ha2, he2⟩ := ih s1 s' h
        exact ⟨ha2.trans ha1, he2.trans he1⟩
    · cases h

theorem close_account_ok_frame [Inhabited Data] (cfg : Config)
    (who : AccountId) (recipient? : Option AccountId) (s s' : LState Data)
    (h : close_account cfg who recipient? s = .ok s') :
    s'.account = s.account ∧ s'.events = .killed who :: s.events := by
  unfold close_account at h
  dsimp only at h
  split at h
  · cases h
  · split at h
    · cases h
    · rcases htr : transferBal cfg.nativeCurrencyId who
          ((recipient?.getD (treasury_account_id cfg)))
          ((unreserveBal cfg.nativeCurrencyId who
            (s.reserved cfg.nativeCurrencyId who) s).free cfg.nativeCurrencyId who)
          (unreserveBal cfg.nativeCurrencyId who
            (s.reserved cfg.nativeCurrencyId who) s) with _ | s2 <;>
        rw [htr] at h
      · cases h
      · dsimp only at h
        rcases hlp : closeNonNativeLoop who
            ((recipient?.getD (treasury_account_id cfg)))
            cfg.allNonNativeCurrencyIds s2 with _ | s3 <;> rw [hlp] at h
        · cases h
        · cases h
          obtain ⟨ha1, he1, _⟩ := transferBal_some_frame _ _ _ _ _ s2 htr
          obtain ⟨ha2, he2⟩ := closeNonNativeLoop_ok_frame _ _ _ s2 s3 hlp
          refine ⟨ha2.trans ha1, ?_⟩
          show Event.killed who :: s3.events = Event.killed who :: s.events
          rw [he2, he1]
          rfl

theorem stepOp_account_ne [Inhabited Data] (cfg : Config) (k' : AccountId)
    (op : TrackerOp Data) (s : LState Data) (a : AccountId) (ha : a ≠ k') :
    (stepOp cfg k' op s).account a = s.account a := by
  cases op with
  | insertOp d =>
    rcases hs : s.account k' with _ | a0
    · rw [stepOp, insert_fresh_eq cfg k' d s hs, open_account_account_ne _ _ _ _ ha]
      simp [ha]
    · rw [stepOp, insert_explicit_eq cfg k' d s a0 hs]
      simp [ha]
  | mutateOp f =>
    rcases hs : s.account k' with _ | a0
    · rw [stepOp, mutateMap_fresh_eq k' _ s hs]
      simp [ha]
    · rw [stepOp, mutateMap_explicit_eq k' _ s a0 hs]
      simp [ha]
  | tryOp f =>
    rcases hs : s.account k' with _ | a0
    · rcases hf : f none with e | d'
      · have hf' : (fun x => (f x).map (fun y => (y, ())))
            ((s.account k').map (fun a => a.data)) = .error e := by
          simp [hs, hf, Except.map]
        rw [stepOp, try_mutate_error_eq cfg k' _ s e hf']
      · have hf' : (fun x => (f x).map (fun y => (y, ()))) none = .ok (d', ()) := by
          simp [hf, Except.map]
        rw [stepOp, try_mutate_fresh_ok_eq cfg k' _ s d' () hs hf',
          open_account_account_ne _ _ _ _ ha]
        simp [ha]
    · rcases hf : f (some a0.data) with e | d'
      · have hf' : (fun x => (f x).map (fun y => (y, ())))
            ((s.account k').map (fun a => a.data)) = .error e := by
          simp [hs, hf, Except.map]
        rw [stepOp, try_mutate_error_eq cfg k' _ s e hf']
      · have hf' : (fun x => (f x).map (fun y => (y, ()))) (some a0.data) =
            .ok (d', ()) := by simp [hf, Except.map]
        rw [stepOp, try_mutate_explicit_ok_eq cfg k' _ s a0 d' () hs hf']
        simp [ha]

theorem default_accountInfo [Inhabited Data] :
    (default : AccountInfo Data) = ⟨0, 0, (default : Data)⟩ := rfl

theorem open_account_account_self [Inhabited Data] (cfg : Config)
    (k : AccountId) (s : LState Data) :
    (open_account cfg k s).account k = s.account k ∨
    (open_account cfg k s).account k = none := by
  by_cases h : cfg.newAccountDeposit ≤ s.free cfg.nativeCurrencyId k
  · rw [open_account_reserve_ok cfg k s h]; exact Or.inl rfl
  · by_cases hk : k = cfg.treasury
    · subst hk; rw [open_account_treasury_poor cfg s h]; exact Or.inl rfl
    · rw [open_account_dust cfg k s h hk]; exact Or.inr (by simp)

theorem transferBal_full (c : CurrencyId) (f t : AccountId) (hft : f ≠ t)
    (s : LState Data) :
    transferBal c f t (s.free c f) s =
      some { s with
        free := upd2 (upd2 s.free c f 0) c t (s.free c t + s.free c f) } := by
  unfold transferBal
  rw [if_pos (le_refl _), if_neg hft]
  simp [Nat.sub_self]

theorem transferBal_full_some (c : CurrencyId) (f t : AccountId)
    (s : LState Data) :
    ∃ s1, transferBal c f t (s.free c f) s = some s1 ∧
      s1.reserved = s.reserved ∧ s1.account = s.account ∧
      s1.events = s.events := by
  unfold transferBal
  rw [if_pos (le_refl _)]
  by_cases h : f = t
  · rw [if_pos h]; exact ⟨s, rfl, rfl, rfl, rfl⟩
  · rw [if_neg h]; exact ⟨_, rfl, rfl, rfl, rfl⟩

theorem closeNonNativeLoop_reserved_error (who recipient : AccountId) :
    ∀ (l : List CurrencyId) (s : LState Data),
      (∃ c ∈ l, s.reserved c who ≠ 0) →
      closeNonNativeLoop who recipient l s = .error .stillHasActiveReserved := by
  intro l
  induction l with
  | nil => rintro s ⟨c, hc, _⟩; cases hc
  | cons c rest ih =>
    rintro s ⟨c0, hc0mem, hc0⟩
    unfold closeNonNativeLoop
    by_cases hr : s.reserved c who = 0
    · rw [if_pos hr]
      obtain ⟨s1, htr, hres1, _, _⟩ := transferBal_full_some c who recipient s
      rw [htr]
      have hc0rest : c0 ∈ rest := by
        rcases List.mem_cons.1 hc0mem with he | hm
        · exact absurd (he ▸ hr) hc0
        · exact hm
      exact ih s1 ⟨c0, hc0rest, by rw [hres1]; exact hc0⟩
    · rw [if_neg hr]

theorem closeNonNativeLoop_ok_spec (who recipient : AccountId)
    (hwr : who ≠ recipient) :
    ∀ (l : List CurrencyId) (s : LState Data),
      (∀ c ∈ l, s.reserved c who = 0) →
      ∃ s', closeNonNativeLoop who recipient l s = .ok s' ∧
        s'.account = s.account ∧ s'.events = s.events ∧
        s'.reserved = s.reserved ∧
        (∀ c a, c ∉ l → s'.free c a = s.free c a) ∧
        (∀ c a, a ≠ who → a ≠ recipient → s'.free c a = s.free c a) ∧
        (∀ c ∈ l, s'.free c who = 0) ∧
        (∀ c ∈ l, s'.free c recipient = s.free c recipient + s.free c who) := by
  intro l
  induction l with
  | nil =>
    intro s _
    exact ⟨s, rfl, rfl, rfl, rfl, fun _ _ _ => rfl, fun _ _ _ _ => rfl,
      fun c hc => absurd hc (List.not_mem_nil c), fun c hc => absurd hc (List.not_mem_nil c)⟩
  | cons c rest ih =>
    intro s hres
    have hc : s.reserved c who = 0 := hres c (List.mem_cons_self c rest)
    unfold closeNonNativeLoop
    rw [if_pos hc, transferBal_full c who recipient hwr s]
    dsimp only
    set s1 : LState Data := { s with free := upd2 (upd2 s.free c who 0) c recipient (s.free c recipient + s.free c who) } with hs1
    have h1who : s1.free c who = 0 := by
      simp [hs1, upd2, hwr]
    have h1rec : s1.free c recipient = s.free c recipient + s.free c who := by
      simp [hs1, upd2]
    have h1other : ∀ c' a, ¬ (c' = c ∧ a = recipient) → ¬ (c' = c ∧ a = who) →
        s1.free c' a = s.free c' a := by
      intro c' a hnr hnw
      simp only [hs1, upd2]
      rw [if_neg hnr, if_neg hnw]
    have h1ne : ∀ c' a, c' ≠ c → s1.free c' a = s.free c' a := fun c' a hne =>
      h1other c' a (fun hx => hne hx.1) (fun hx => hne hx.1)
    obtain ⟨s', hloop, hacc, hev, hres', hnotin, hother, hwho, hrec⟩ :=
      ih s1 (fun c' hc' => hres c' (List.mem_cons_of_mem c hc'))
    refine ⟨s', hloop, hacc, hev, hres', ?_, ?_, ?_, ?_⟩
    · intro c' a hnotmem
      have hc'c : c' ≠ c := fun he => hnotmem (he ▸ List.mem_cons_self c rest)
      have hc'rest : c' ∉ rest := fun hm => hnotmem (List.mem_cons_of_mem c hm)
      rw [hnotin c' a hc'rest, h1ne c' a hc'c]
    · intro c' a haw har
      rw [hother c' a haw har,
        h1other c' a (fun hx => har hx.2) (fun hx => haw hx.2)]
    · intro c' hmem
      rcases List.mem_cons.1 hmem with he | hm
      · subst he
        by_cases hcr : c' ∈ rest
        · exact hwho c' hcr
        · rw [hnotin c' who hcr, h1who]
      · exact hwho c' hm
    · intro c' hmem
      rcases List.mem_cons.1 hmem with he | hm
      · subst he
        by_cases hcr : c' ∈ rest
        · rw [hrec c' hcr, h1rec, h1who, Nat.add_zero]
        · rw [hnotin c' recipient hcr, h1rec]
      · by_cases hc'c : c' = c
        · subst hc'c
          rw [hrec c' hm, h1rec, h1who, Nat.add_zero]
        · rw [hrec c' hm, h1ne c' recipient hc'c, h1ne c' who hc'c]

/-! ## Claims -/

/-- C8: `get_priority` computes
`min(final_fee * min(MaximumBlockWeight / max(weight,1),
MaximumBlockLength / max(len,1)), u64::MAX)` — the stated formula with
the only effective saturation at the final `u64` conversion (the `u64`
divisions cannot overflow, the `u64 → u128` conversion is lossless for
in-range configuration, and the `u128` saturating multiplication is
absorbed by the stricter `u64` cap); and the concrete scenario with
tip 0, fee 10, length 100, weight 10, maximum weight 1000 and maximum
length 1000 yields priority 100. -/
theorem C8_get_priority_formula (cfg : Config) (len infoWeight : Nat)
    (final_fee : Balance) (hw : cfg.maximumBlockWeight < 2 ^ 64)
    (hl : cfg.maximumBlockLength < 2 ^ 64) (hf : final_fee < 2 ^ 128) :
    get_priority cfg len infoWeight final_fee =
      min (final_fee * min (cfg.maximumBlockWeight / max infoWeight 1)
        (cfg.maximumBlockLength / max len 1)) (2 ^ 64 - 1) ∧
    get_priority cfgA 100 10 10 = 100 := by
  constructor
  · simp only [get_priority, satInto, saturatingMul128]
    have h1 : cfg.maximumBlockWeight / max infoWeight 1 ≤ cfg.maximumBlockWeight :=
      Nat.div_le_self _ _
    have h2 : min (cfg.maximumBlockWeight / max infoWeight 1)
        (cfg.maximumBlockLength / max len 1) ≤ 2 ^ 128 - 1 := by
      have : (2:Nat) ^ 64 ≤ 2 ^ 128 := Nat.pow_le_pow_right (by norm_num) (by norm_num)
      omega
    have h3 : (2:Nat) ^ 64 - 1 ≤ 2 ^ 128 - 1 := by
      have : (2:Nat) ^ 64 ≤ 2 ^ 128 := Nat.pow_le_pow_right (by norm_num) (by norm_num)
      omega
    rw [Nat.min_eq_left h2, min_assoc, Nat.min_eq_right h3]
  · decide

/-- C8 witness: the general formula applied at the scenario input. -/
theorem C8_witness :
    get_priority cfgA 100 10 10 = 100 :=
  (C8_get_priority_formula cfgA 100 10 10 (by decide) (by decide) (by decide)).2

/-- C4: behaviour of `open_account(k)` (total, never an error):
if the deposit can be reserved from `k`'s free native balance, the
deposit moves from free to reserved and `OnCreatedAccount` ("created")
fires; if the reservation fails and `k` is not the treasury account, the
entire free native balance moves to the treasury, the explicit record of
`k` is erased, and "created" does not fire (in this ledger model the
dust transfer of the whole free balance always succeeds, so the
transfer-failure subcase is empty); if the reservation fails and `k` is
the treasury account, nothing changes but the recorded invocation —
the account stays open without a reservation. -/
theorem C4_open_account_cases [Inhabited Data] (cfg : Config) (k : AccountId)
    (s : LState Data) :
    (cfg.newAccountDeposit ≤ s.free cfg.nativeCurrencyId k →
      open_account cfg k s =
        { s with
          free := upd2 s.free cfg.nativeCurrencyId k
            (s.free cfg.nativeCurrencyId k - cfg.newAccountDeposit),
          reserved := upd2 s.reserved cfg.nativeCurrencyId k
            (s.reserved cfg.nativeCurrencyId k + cfg.newAccountDeposit),
          events := .created k :: .openAccountEnter k :: s.events }) ∧
    (¬ cfg.newAccountDeposit ≤ s.free cfg.nativeCurrencyId k → k ≠ cfg.treasury →
      open_account cfg k s =
        { s with
          account := fun a => if a = k then none else s.account a,
          free := upd2 (upd2 s.free cfg.nativeCurrencyId k 0) cfg.nativeCurrencyId
            cfg.treasury
            (s.free cfg.nativeCurrencyId cfg.treasury + s.free cfg.nativeCurrencyId k),
          events := .openAccountEnter k :: s.events }) ∧
    (¬ cfg.newAccountDeposit ≤ s.free cfg.nativeCurrencyId k → k = cfg.treasury →
      open_account cfg k s = { s with events := .openAccountEnter k :: s.events }) := by
  refine ⟨fun h => open_account_reserve_ok cfg k s h,
    fun h hk => open_account_dust cfg k s h hk, fun h hk => ?_⟩
  subst hk
  exact open_account_treasury_poor cfg s h

/-- C4 witness: the dust branch at a concrete poor account — the 50
free native units go to the treasury, the record is erased, and only
the `open_account` entry (no "created") is logged. -/
theorem C4_witness :
    (open_account cfgA 1 sPoor).account 1 = none ∧
    (open_account cfgA 1 sPoor).free 0 7 = 50 ∧
    (open_account cfgA 1 sPoor).free 0 1 = 0 ∧
    (open_account cfgA 1 sPoor).events = [.openAccountEnter 1] := by
  have h := (C4_open_account_cases cfgA 1 sPoor).2.1 (by decide) (by decide)
  rw [h]
  refine ⟨rfl, by decide, by decide, rfl⟩

/-- C1: exactly-once lifecycle notification. On an account with no
explicit record, `insert` invokes `open_account` exactly once, `mutate`
fires exactly one "created" notification (and never invokes
`open_account`), and a successful `try_mutate_exists` invokes
`open_account` exactly once while a failing one fires nothing and leaves
the state untouched; and over any sequence of insert/mutate/
try_mutate_exists calls made while the record is already explicit, no
event at all is appended (so no further `open_account` or "created"
invocation fires) and the record stays explicit. -/
theorem C1_exactly_once_notification [Inhabited Data] (cfg : Config)
    (k : AccountId) :
    (∀ (d : Data) (s : LState Data), s.account k = none →
      openInvocations k (insert cfg k d s).events =
        openInvocations k s.events + 1) ∧
    (∀ (f : Data → Data) (s : LState Data), s.account k = none →
      createdInvocations k ((mutateMap k (fun d => (f d, ())) s).1).events =
        createdInvocations k s.events + 1 ∧
      openInvocations k ((mutateMap k (fun d => (f d, ())) s).1).events =
        openInvocations k s.events) ∧
    (∀ (f : Option Data → Except Unit (Option Data)) (s : LState Data)
      (d' : Option Data), s.account k = none → f none = .ok d' →
      openInvocations k (stepOp cfg k (.tryOp f) s).events =
        openInvocations k s.events + 1) ∧
    (∀ (f : Option Data → Except Unit (Option Data)) (s : LState Data),
      s.account k = none → f none = .error () →
      stepOp cfg k (.tryOp f) s = s) ∧
    (∀ (ops : List (TrackerOp Data)) (s : LState Data)
      (a0 : AccountInfo Data), s.account k = some a0 →
      (runOps cfg k ops s).events = s.events) := by
  refine ⟨fun d s h => ?_, fun f s h => ?_, fun f s d' h hf => ?_,
    fun f s h hf => ?_, fun ops s a0 h => (runOps_explicit_frame cfg k ops s a0 h).1⟩
  · rw [insert_fresh_eq cfg k d s h, openInvocations_open_account]
  · rw [mutateMap_fresh_eq k _ s h]
    constructor
    · simp [createdInvocations]; omega
    · simp [openInvocations]
  · have hf' : (fun x => (f x).map (fun y => (y, ()))) none = .ok (d', ()) := by
      simp [hf, Except.map]
    rw [stepOp, try_mutate_fresh_ok_eq cfg k _ s d' () h hf',
      openInvocations_open_account]
  · have hf' : (fun x => (f x).map (fun y => (y, ())))
        ((s.account k).map (fun a => a.data)) = .error () := by
      simp [h, hf, Except.map]
    rw [stepOp, try_mutate_error_eq cfg k _ s () hf']

/-- C1 witness: first insert on a recordless account invokes
`open_account` exactly once. -/
theorem C1_witness :
    openInvocations 1 (insert cfgA 1 (5 : Nat) sPoor).events =
      openInvocations 1 sPoor.events + 1 :=
  (C1_exactly_once_notification cfgA 1).1 5 sPoor rfl

/-- C2 counterexample: the claim "if `f` succeeds, the stored record is
always written back" fails for a fresh account that cannot afford the
deposit. In `sPoor` account 1 has no record and 50 free native units
(deposit 100); `c2f` succeeds with data `some 7`, the record
`⟨0, 0, 7⟩` is written, but the dust branch of the subsequent
`open_account` erases it, so after the (successful) call the record of
account 1 is absent. -/
theorem C2_counterexample : c2probe = none := by decide

/-- C2 amended: on success of `f`, `try_mutate_exists` writes back the
record combining the preserved prefix (nonce, refcount — defaulted for a
fresh account) with `f`'s resulting data (defaulted if the view is
empty), even when the data view became empty; for an account that
already existed that written record is the final state of the call,
while for a fresh account `open_account` runs afterwards on the written
state (and only its dust-recycling branch may erase the new record). If
`f` fails, the error is returned unchanged and no storage write, balance
change or notification happens (the pre-call state stands). -/
theorem C2_try_mutate_postconditions [Inhabited Data] {R E : Type}
    (cfg : Config) (k : AccountId) :
    (∀ (f : Option Data → Except E (Option Data × R)) (s : LState Data)
      (a0 : AccountInfo Data) (d' : Option Data) (r : R),
      s.account k = some a0 → f (some a0.data) = .ok (d', r) →
      try_mutate_exists cfg k f s =
        .ok ({ s with account := fun a =>
            if a = k then some ⟨a0.nonce, a0.refcount, d'.getD default⟩
            else s.account a }, r)) ∧
    (∀ (f : Option Data → Except E (Option Data × R)) (s : LState Data)
      (d' : Option Data) (r : R),
      s.account k = none → f none = .ok (d', r) →
      try_mutate_exists cfg k f s =
        .ok (open_account cfg k
          { s with account := fun a =>
              if a = k then some ⟨0, 0, d'.getD default⟩
              else s.account a }, r)) ∧
    (∀ (f : Option Data → Except E (Option Data × R)) (s : LState Data) (e : E),
      f ((s.account k).map (fun a => a.data)) = .error e →
      try_mutate_exists cfg k f s = .error e) :=
  ⟨fun f s a0 d' r h hf => try_mutate_explicit_ok_eq cfg k f s a0 d' r h hf,
   fun f s d' r h hf => try_mutate_fresh_ok_eq cfg k f s d' r h hf,
   fun f s e hf => try_mutate_error_eq cfg k f s e hf⟩

/-- C2 witness: the explicit-record case at a concrete input — the
prefix (3, 0) of account 1 survives and the data becomes 7. -/
theorem C2_witness :
    try_mutate_exists cfgA 1 c2f sExp =
      .ok ({ sExp with account := fun a =>
          if a = 1 then some ⟨3, 0, 7⟩ else sExp.account a }, ()) :=
  (C2_try_mutate_postconditions cfgA 1).1 c2f sExp ⟨3, 0, 9⟩ (some 7) ()
    (by decide) rfl

/-- C3 counterexample: a no-op `try_mutate_exists` on an account with no
explicit record does fire `open_account` — the record is created (with
default prefix) and `open_account` is invoked once; the event log of
`sPoor` is empty beforehand, so the claim's "never fires open_account"
fails at this input. -/
theorem C3_counterexample : c3probe = 1 ∧ openInvocations 1 sPoor.events = 0 := by
  constructor <;> decide

/-- C3 amended: a no-op `try_mutate_exists` on an account that already
has an explicit record is a complete no-op — it returns the state
unchanged (same record, same nonce/refcount, same balances, no event
fired). On an account with no explicit record it writes a default record
and invokes `open_account` on the result. -/
theorem C3_noop_try_mutate [Inhabited Data] (cfg : Config) (k : AccountId) :
    (∀ (s : LState Data) (a0 : AccountInfo Data), s.account k = some a0 →
      try_mutate_exists cfg k noopF s = .ok (s, ())) ∧
    (∀ (s : LState Data), s.account k = none →
      try_mutate_exists cfg k noopF s =
        .ok (open_account cfg k
          { s with account := fun a =>
              if a = k then some default else s.account a }, ())) := by
  constructor
  · intro s a0 h
    have hacc : (fun a => if a = k then
        some (⟨a0.nonce, a0.refcount, a0.data⟩ : AccountInfo Data)
        else s.account a) = s.account := by
      funext a
      by_cases ha : a = k
      · subst ha; rw [if_pos rfl, h]
      · rw [if_neg ha]
    rw [try_mutate_explicit_ok_eq cfg k noopF s a0 (some a0.data) () h rfl]
    simp only [Option.getD_some]
    rw [hacc]
  · intro s h
    rw [try_mutate_fresh_ok_eq cfg k noopF s none () h rfl]
    rfl

/-- C3 witness: the amended no-op property at a concrete explicit
record. -/
theorem C3_witness :
    try_mutate_exists cfgA 1 noopF sExp = .ok (sExp, ()) :=
  (C3_noop_try_mutate cfgA 1).1 sExp ⟨3, 0, 9⟩ (by decide)

/-- C9 counterexample: the module does physically delete an account
record. Inserting data for account 1 in `sPoor` (no record, 50 free
native units, deposit 100) writes an explicit record and then
`open_account`'s dust branch removes it via `system::Account::remove`
(lib.rs:227): after the call the identity carries no record at all,
refuting "no operation of this module ever physically deletes the
account record". -/
theorem C9_counterexample : (insert cfgA 1 (5 : Nat) sPoor).account 1 = none := by
  decide

/-- C9 amended: no operation ever deletes the record of an identity
that was explicit before the call — insert/mutate/try_mutate_exists (on
any key), close_account and `StoredMap::remove` all leave a
pre-existing record present, close_account never touches account
storage at all, and `StoredMap::remove` touches no storage; the single
physical deletion in the module is `open_account`'s dust-recycling
branch, which can only erase the record created within the same call
(an account that just transitioned to explicit), never an older one. -/
theorem C9_no_deletion_of_preexisting [Inhabited Data] (cfg : Config)
    (k : AccountId) :
    (∀ (k' : AccountId) (op : TrackerOp Data) (s : LState Data)
      (a0 : AccountInfo Data), s.account k = some a0 →
      ∃ a1, (stepOp cfg k' op s).account k = some a1) ∧
    (∀ (who : AccountId) (recipient? : Option AccountId) (s : LState Data),
      (close_account_dispatch cfg who recipient? s).account = s.account) ∧
    (∀ (s : LState Data), (removeAccount k s).account = s.account) := by
  refine ⟨fun k' op s a0 h => ?_, fun who recipient? s => ?_, fun s => rfl⟩
  · by_cases hk : k' = k
    · subst hk
      exact (stepOp_explicit_frame cfg k' op s a0 h).2
    · exact ⟨a0, by rw [stepOp_account_ne cfg k' op s k (fun he => hk he.symm)]; exact h⟩
  · unfold close_account_dispatch
    rcases hc : close_account cfg who recipient? s with e | s'
    · rfl
    · exact (close_account_ok_frame cfg who recipient? s s' hc).1

/-- C9 witness: a pre-existing record (account 1 in `sExp`) survives an
insert that overwrites its data. -/
theorem C9_witness :
    ∃ a1, (stepOp cfgA 1 (.insertOp (42 : Nat)) sExp).account 1 = some a1 :=
  (C9_no_deletion_of_preexisting cfgA 1).1 1 (.insertOp 42) sExp ⟨3, 0, 9⟩
    (by decide)

/-- C10: frame condition of `insert` and `mutate` — both leave the
sequence (nonce) and reference count of the stored record unchanged
(reading absent records as the default, as `ValueQuery` storage does),
whether or not the record existed; and on a pre-existing record both
modify exactly the data field, leaving the rest of the record intact. -/
theorem C10_insert_mutate_frame [Inhabited Data] (cfg : Config)
    (k : AccountId) :
    (∀ (d : Data) (s : LState Data),
      nonceOf (insert cfg k d s) k = nonceOf s k ∧
      refcountOf (insert cfg k d s) k = refcountOf s k) ∧
    (∀ (R : Type) (f : Data → Data × R) (s : LState Data),
      nonceOf (mutateMap k f s).1 k = nonceOf s k ∧
      refcountOf (mutateMap k f s).1 k = refcountOf s k) ∧
    (∀ (d : Data) (s : LState Data) (a0 : AccountInfo Data),
      s.account k = some a0 →
      (insert cfg k d s).account k = some { a0 with data := d }) ∧
    (∀ (R : Type) (f : Data → Data × R) (s : LState Data)
      (a0 : AccountInfo Data), s.account k = some a0 →
      (mutateMap k f s).1.account k = some { a0 with data := (f a0.data).1 }) := by
  refine ⟨fun d s => ?_, fun R f s => ?_, fun d s a0 h => ?_, fun R f s a0 h => ?_⟩
  · rcases hs : s.account k with _ | a0
    · rw [insert_fresh_eq cfg k d s hs]
      have hw : ({ s with account := fun a => if a = k then some (⟨0, 0, d⟩ : AccountInfo Data) else s.account a } : LState Data).account k = some ⟨0, 0, d⟩ := by simp
      rcases open_account_account_self cfg k ({ s with account := fun a => if a = k then some (⟨0, 0, d⟩ : AccountInfo Data) else s.account a }) with hself | hself <;>
        simp [nonceOf, refcountOf, hself, hw, hs, default_accountInfo]
    · rw [insert_explicit_eq cfg k d s a0 hs]
      simp [nonceOf, refcountOf, hs]
  · rcases hs : s.account k with _ | a0
    · rw [mutateMap_fresh_eq k f s hs]
      simp [nonceOf, refcountOf, hs, default_accountInfo]
    · rw [mutateMap_explicit_eq k f s a0 hs]
      simp [nonceOf, refcountOf, hs]
  · rw [insert_explicit_eq cfg k d s a0 h]
    simp
  · rw [mutateMap_explicit_eq k f s a0 h]
    simp

/-- C10 witness: inserting data 42 over the record `⟨3, 0, 9⟩` of
account 1 keeps nonce 3 and refcount 0 and changes only the data. -/
theorem C10_witness :
    (insert cfgA 1 (42 : Nat) sExp).account 1 = some ⟨3, 0, 42⟩ :=
  (C10_insert_mutate_frame cfgA 1).2.2.1 42 sExp ⟨3, 0, 9⟩ (by decide)

/-- C5: close_account precondition failures are atomic. With a non-zero
refcount (`allow_death` false) it fails with `NonZeroRefCount`; passing
that check, a reserved native balance above the deposit fails with
`StillHasActiveReserved` (the two checks run in this order, so the
refcount check wins when both would fail); passing both, a non-zero
reserved balance of any configured non-native currency discovered
mid-way also fails with `StillHasActiveReserved`; and every failing call
leaves the dispatched state — all balances included — exactly as it was
(`with_transaction_result` rollback). -/
theorem C5_close_account_failure_atomic [Inhabited Data] (cfg : Config)
    (who : AccountId) (recipient? : Option AccountId) (s : LState Data) :
    (allow_death s who = false →
      close_account cfg who recipient? s = .error .nonZeroRefCount) ∧
    (allow_death s who = true →
      ¬ s.reserved cfg.nativeCurrencyId who ≤ cfg.newAccountDeposit →
      close_account cfg who recipient? s = .error .stillHasActiveReserved) ∧
    (allow_death s who = true →
      s.reserved cfg.nativeCurrencyId who ≤ cfg.newAccountDeposit →
      cfg.nativeCurrencyId ∉ cfg.allNonNativeCurrencyIds →
      (∃ c ∈ cfg.allNonNativeCurrencyIds, s.reserved c who ≠ 0) →
      close_account cfg who recipient? s = .error .stillHasActiveReserved) ∧
    (∀ e, close_account cfg who recipient? s = .error e →
      close_account_dispatch cfg who recipient? s = s) := by
  refine ⟨fun h => ?_, fun h1 h2 => ?_, fun h1 h2 hnn hex => ?_, fun e h => ?_⟩
  · simp [close_account, h]
  · simp [close_account, h1, h2]
  · unfold close_account
    rw [if_neg (not_not_intro h1), if_neg (not_not_intro h2)]
    dsimp only
    set s1 : LState Data := unreserveBal cfg.nativeCurrencyId who
      (s.reserved cfg.nativeCurrencyId who) s with hs1
    obtain ⟨s2, htr, hres2, _, _⟩ := transferBal_full_some cfg.nativeCurrencyId
      who (recipient?.getD (treasury_account_id cfg)) s1
    rw [htr]
    dsimp only
    obtain ⟨c, hcmem, hcnz⟩ := hex
    have hcne : c ≠ cfg.nativeCurrencyId := fun he => hnn (he ▸ hcmem)
    have h2nz : s2.reserved c who ≠ 0 := by
      rw [hres2, hs1]
      simpa [unreserveBal, upd2, hcne] using hcnz
    rw [closeNonNativeLoop_reserved_error who _ _ s2 ⟨c, hcmem, h2nz⟩]
  · simp [close_account_dispatch, h]

/-- C5 witness: a concrete account with refcount zero, reserved native
within the deposit, but a non-zero non-native reserve — discovered
mid-way — makes `close_account` fail with `StillHasActiveReserved` and
leaves the dispatched state untouched. -/
theorem C5_witness :
    close_account cfgA 1 none
      { sPoor with reserved := fun c a => if c = 2 ∧ a = 1 then 4 else 0 } =
      .error .stillHasActiveReserved ∧
    close_account_dispatch cfgA 1 none
      { sPoor with reserved := fun c a => if c = 2 ∧ a = 1 then 4 else 0 } =
      { sPoor with reserved := fun c a => if c = 2 ∧ a = 1 then 4 else 0 } := by
  have h := (C5_close_account_failure_atomic cfgA 1 none
    { sPoor with reserved := fun c a => if c = 2 ∧ a = 1 then 4 else 0 }).2.2.1
    (by decide) (by decide) (by decide) ⟨2, by decide, by decide⟩
  exact ⟨h, (C5_close_account_failure_atomic cfgA 1 none
    { sPoor with reserved := fun c a => if c = 2 ∧ a = 1 then 4 else 0 }).2.2.2
    .stillHasActiveReserved h⟩

/-- C6 counterexample: when the closing account is itself the recipient
(the treasury account closing with the default recipient), its free
native balance stays with it: in `sTreasury` the treasury (account 7)
holds 5 free native units, both preconditions pass, `close_account`
succeeds — yet afterwards the closer retains free native balance 5, not
0, refuting "leaves the caller with native free+reserved = 0" for every
account. -/
theorem C6_counterexample : c6probe = 5 := by decide

/-- C6 amended: for every account passing both preconditions, with all
configured non-native reserves zero and the caller distinct from the
resolved recipient, `close_account` succeeds; the caller ends with
native free and reserved both 0, the recipient's free native balance
grows by exactly the caller's pre-close free+reserved native amount,
every configured non-native currency's free balance moves entirely from
the caller to the recipient, and exactly one `KillAccount` notification
is fired, after everything else. -/
theorem C6_close_account_success [Inhabited Data] (cfg : Config)
    (who : AccountId) (recipient? : Option AccountId) (s : LState Data)
    (h1 : allow_death s who = true)
    (h2 : s.reserved cfg.nativeCurrencyId who ≤ cfg.newAccountDeposit)
    (h3 : ∀ c ∈ cfg.allNonNativeCurrencyIds, s.reserved c who = 0)
    (hnn : cfg.nativeCurrencyId ∉ cfg.allNonNativeCurrencyIds)
    (hr : who ≠ recipient?.getD (treasury_account_id cfg)) :
    ∃ s', close_account cfg who recipient? s = .ok s' ∧
      s'.free cfg.nativeCurrencyId who = 0 ∧
      s'.reserved cfg.nativeCurrencyId who = 0 ∧
      s'.free cfg.nativeCurrencyId (recipient?.getD (treasury_account_id cfg)) =
        s.free cfg.nativeCurrencyId (recipient?.getD (treasury_account_id cfg)) +
        s.free cfg.nativeCurrencyId who + s.reserved cfg.nativeCurrencyId who ∧
      (∀ c ∈ cfg.allNonNativeCurrencyIds, s'.free c who = 0 ∧
        s'.free c (recipient?.getD (treasury_account_id cfg)) =
          s.free c (recipient?.getD (treasury_account_id cfg)) + s.free c who) ∧
      s'.events = .killed who :: s.events := by
  unfold close_account
  rw [if_neg (not_not_intro h1), if_neg (not_not_intro h2)]
  dsimp only
  set rec := recipient?.getD (treasury_account_id cfg) with hrec0
  set s1 : LState Data := unreserveBal cfg.nativeCurrencyId who
    (s.reserved cfg.nativeCurrencyId who) s with hs1
  rw [transferBal_full cfg.nativeCurrencyId who rec hr s1]
  dsimp only
  set s2 : LState Data := { s1 with free := upd2 (upd2 s1.free cfg.nativeCurrencyId who 0) cfg.nativeCurrencyId rec (s1.free cfg.nativeCurrencyId rec + s1.free cfg.nativeCurrencyId who) } with hs2
  have hs2res : ∀ c ∈ cfg.allNonNativeCurrencyIds, s2.reserved c who = 0 := by
    intro c hc
    have hcne : c ≠ cfg.nativeCurrencyId := fun he => hnn (he ▸ hc)
    have : s2.reserved = s1.reserved := rfl
    rw [this, hs1]
    simpa [unreserveBal, upd2, hcne] using h3 c hc
  obtain ⟨s3, hloop, hacc3, hev3, hres3, hnotin3, hother3, hwho3, hrec3⟩ :=
    closeNonNativeLoop_ok_spec who rec hr cfg.allNonNativeCurrencyIds s2 hs2res
  rw [hloop]
  dsimp only
  have h1fwho : s1.free cfg.nativeCurrencyId who =
      s.free cfg.nativeCurrencyId who + s.reserved cfg.nativeCurrencyId who := by
    rw [hs1]; simp [unreserveBal, upd2]
  have h1frec : s1.free cfg.nativeCurrencyId rec =
      s.free cfg.nativeCurrencyId rec := by
    rw [hs1]; simp [unreserveBal, upd2, Ne.symm hr]
  have h1fne : ∀ c a, c ≠ cfg.nativeCurrencyId → s1.free c a = s.free c a := by
    intro c a hc
    rw [hs1]; simp [unreserveBal, upd2, hc]
  have h2fwho : s2.free cfg.nativeCurrencyId who = 0 := by
    rw [hs2]; simp [upd2, hr]
  have h2frec : s2.free cfg.nativeCurrencyId rec =
      s1.free cfg.nativeCurrencyId rec + s1.free cfg.nativeCurrencyId who := by
    rw [hs2]; simp [upd2]
  have h2fne : ∀ c a, c ≠ cfg.nativeCurrencyId → s2.free c a = s.free c a := by
    intro c a hc
    rw [hs2]
    simp only [upd2, hc, false_and, if_false]
    exact h1fne c a hc
  refine ⟨logEvent (.killed who) s3, rfl, ?_, ?_, ?_, ?_, ?_⟩
  · show s3.free cfg.nativeCurrencyId who = 0
    rw [hnotin3 cfg.nativeCurrencyId who hnn, h2fwho]
  · show s3.reserved cfg.nativeCurrencyId who = 0
    have : s3.reserved = s1.reserved := hres3
    rw [this, hs1]
    simp [unreserveBal, upd2, Nat.sub_self]
  · show s3.free cfg.nativeCurrencyId rec = _
    rw [hnotin3 cfg.nativeCurrencyId rec hnn, h2frec, h1frec, h1fwho]
    exact (Nat.add_assoc _ _ _).symm
  · intro c hc
    have hcne : c ≠ cfg.nativeCurrencyId := fun he => hnn (he ▸ hc)
    refine ⟨hwho3 c hc, ?_⟩
    show s3.free c rec = s.free c rec + s.free c who
    rw [hrec3 c hc, h2fne c rec hcne, h2fne c who hcne]
  · show Event.killed who :: s3.events = Event.killed who :: s.events
    rw [hev3]
    rfl

/-- C6 witness: account 1 in `sClose` (50 free + 30 reserved native,
20 free of currency 2) closes into the default recipient (the treasury,
account 7): the treasury receives all 80 native units and the 20 units
of currency 2, the caller ends at zero, and `KillAccount` fires. -/
theorem C6_witness :
    ∃ s', close_account cfgA 1 none sClose = .ok s' ∧
      s'.free 0 1 = 0 ∧ s'.reserved 0 1 = 0 ∧ s'.free 0 7 = 80 ∧
      s'.free 1 1 = 0 ∧ s'.free 2 1 = 0 ∧ s'.free 1 7 = 0 ∧
      s'.free 2 7 = 20 ∧ s'.events = [.killed 1] := by
  have h3c : ∀ c ∈ cfgA.allNonNativeCurrencyIds, sClose.reserved c 1 = 0 := by
    intro c hcmem
    simp only [cfgA, List.mem_cons, List.not_mem_nil, or_false] at hcmem
    rcases hcmem with h | h <;> subst h <;> decide
  obtain ⟨s', hok, ha, hb, hc, hd, he⟩ := C6_close_account_success cfgA 1 none
    sClose (by decide) (by decide) h3c (by decide) (by decide)
  exact ⟨s', hok, ha, hb, hc.trans (by decide), (hd 1 (by decide)).1,
    (hd 2 (by decide)).1, (hd 1 (by decide)).2.trans (by decide),
    (hd 2 (by decide)).2.trans (by decide), he.trans (by decide)⟩

/-- C7: `withdraw_fee` computes `fee = compute_fee(len, info, tip)`;
when the native balance does not pass the `ensure_can_withdraw` dry-run
(`nativeIsEnough` false) it runs the fallback swap loop over the
configured non-native currencies in declared order — each step
attempting one DEX swap targeting the full fee along
`[stable, native]` for the stable currency or `[c, stable, native]`
otherwise, bounded by the payer's free balance of that currency and the
configured slippage, stopping at the first success, ignoring failures —
and when the balance passes the dry-run no swap is attempted; in all
cases it then withdraws `fee` from the payer's native balance, returning
`(fee, Some imbalance)` on success, and it returns
`InvalidTransaction::Payment` if and only if that final withdrawal
fails. -/
theorem C7_withdraw_fee_behaviour (env : FeeEnv Data) (cfg : Config)
    (who : AccountId) (infoWeight len : Nat) (tip : Balance) (s : LState Data) :
    (∀ e, withdraw_fee env cfg who infoWeight len tip s = .error e ↔
      (env.withdraw who (env.computeFee len infoWeight tip) (tip != 0)
        (preWithdrawState env cfg who (env.computeFee len infoWeight tip)
          (tip != 0) s) = none ∧ e = .paymentInvalid)) ∧
    (∀ s2 imb,
      env.withdraw who (env.computeFee len infoWeight tip) (tip != 0)
        (preWithdrawState env cfg who (env.computeFee len infoWeight tip)
          (tip != 0) s) = some (s2, imb) →
      withdraw_fee env cfg who infoWeight len tip s =
        .ok (env.computeFee len infoWeight tip, some imb, s2)) ∧
    (∀ fee reason, nativeIsEnough env cfg who fee reason s = true →
      preWithdrawState env cfg who fee reason s = s) ∧
    (∀ fee reason, nativeIsEnough env cfg who fee reason s = false →
      preWithdrawState env cfg who fee reason s =
        swapLoop env cfg who fee cfg.allNonNativeCurrencyIds s) ∧
    (∀ fee c rest s0, swapLoop env cfg who fee (c :: rest) s0 =
      match env.swap who (tradingPath cfg c) fee (s0.free c who)
        (some cfg.slippage) s0 with
      | some s1 => s1
      | none => swapLoop env cfg who fee rest s0) ∧
    (tradingPath cfg cfg.stableCurrencyId =
      [cfg.stableCurrencyId, cfg.nativeCurrencyId]) ∧
    (∀ c, c ≠ cfg.stableCurrencyId →
      tradingPath cfg c = [c, cfg.stableCurrencyId, cfg.nativeCurrencyId]) := by
  refine ⟨fun e => ?_, fun s2 imb h => ?_, fun fee reason h => ?_,
    fun fee reason h => ?_, fun fee c rest s0 => rfl, by simp [tradingPath],
    fun c hc => by simp [tradingPath, hc]⟩
  · unfold withdraw_fee
    rcases hw : env.withdraw who (env.computeFee len infoWeight tip) (tip != 0)
        (preWithdrawState env cfg who (env.computeFee len infoWeight tip)
          (tip != 0) s) with _ | ⟨s2, imb⟩ <;>
      simp [hw, eq_comm]
  · unfold withdraw_fee
    dsimp only
    rw [h]
  · simp [preWithdrawState, h]
  · simp [preWithdrawState, h]

/-- C7 witness: with the concrete environment `envW` (fee
`len + weight + tip`, always-passing dry-run, withdrawal succeeding iff
covered, failing swaps), a rich payer is charged fee 110 directly. -/
theorem C7_witness :
    withdraw_fee envW cfgA 1 10 100 0 sRich =
      .ok (110, some 110, { sRich with free := upd2 sRich.free 0 1 890 }) :=
  (C7_withdraw_fee_behaviour envW cfgA 1 10 100 0 sRich).2.1
    { sRich with free := upd2 sRich.free 0 1 890 } 110 rfl

end AcalaAccounts
